import Mathlib

/-!  Shallow embedding of the newsletter article extraction engine of the
     tldr repository (the `EmailProcessor` class) together with proofs of
     the frozen claims about it.

     JavaScript strings are modelled as `List Char` (with `String` wrappers
     mirroring the source signatures), JS numbers used by the engine are
     modelled as `ℚ` (similarity scores) and `Int` (timestamps in
     milliseconds), and fallible JS operations (`decodeURIComponent`,
     `new URL`) are modelled as `Option`/`Except`-returning functions so
     that the source's `try`/`catch` structure is explicit.  -/

namespace TLDR

/-- Whitespace characters recognised by the JS regex class `\s` and by
`String.prototype.trim` (the ASCII portion; Unicode spaces are outside the
model). -/
def isJsWs (c : Char) : Bool :=
  c.isWhitespace || c == '\x0b' || c == '\x0c'

/-- Word characters of the JS regex class `\w`. -/
def isWordChar (c : Char) : Bool :=
  c.isAlpha || c.isDigit || c == '_'

/-- Sentence terminators used by the summary heuristics (`[.!?]`). -/
def isTermChar (c : Char) : Bool :=
  c == '.' || c == '!' || c == '?'

/-- Uppercase hexadecimal digits `[0-9A-F]` (tracking-code pattern). -/
def isHexUp (c : Char) : Bool :=
  c.isDigit || ('A' ≤ c && c ≤ 'F')

/-- Characters the JS regex `.` matches (anything but a line terminator). -/
def isDotChar (c : Char) : Bool :=
  !(c == '\n') && !(c == '\r') && !(c == '\u2028') && !(c == '\u2029')

/-- Test whether `s` starts with `p`. -/
def startsWithL : List Char → List Char → Bool
  | _, [] => true
  | [], _ :: _ => false
  | c :: s, p :: ps => c == p && startsWithL s ps

/-- Model of `String.prototype.includes`: `hay` contains `pat` as a
contiguous substring. -/
def containsSub (hay pat : List Char) : Bool :=
  decide (pat <:+: hay)

/-- Model of `String.prototype.toLowerCase` (ASCII portion). -/
def jsToLowerL (s : List Char) : List Char :=
  s.map Char.toLower

/-- String-level wrapper for `toLowerCase`. -/
def jsToLowerS (s : String) : String :=
  String.mk (jsToLowerL s.data)

/-- Model of `String.prototype.trim`. -/
def jsTrim (s : List Char) : List Char :=
  ((s.dropWhile isJsWs).reverse.dropWhile isJsWs).reverse

/-- Model of `text.replace(new RegExp of one or more whitespace, g-flag, one
space)`: each maximal whitespace run becomes a single space.  Fuel-driven;
`collapseWsL` below instantiates the fuel with the input length. -/
def collapseWs : Nat → List Char → List Char
  | _, [] => []
  | 0, s => s
  | fuel + 1, c :: cs =>
    if isJsWs c then ' ' :: collapseWs fuel (cs.dropWhile isJsWs)
    else c :: collapseWs fuel cs

/-- Whitespace collapsing with the fuel instantiated. -/
def collapseWsL (s : List Char) : List Char :=
  collapseWs s.length s

/-- Split at the first occurrence of `sep`: returns the part before it and,
when `sep` occurs, the part after it. -/
def splitFirst (sep : Char) : List Char → List Char × Option (List Char)
  | [] => ([], none)
  | c :: cs =>
    if c = sep then ([], some cs)
    else (c :: (splitFirst sep cs).1, (splitFirst sep cs).2)

/-- Auxiliary for `splitAllChar`; `acc` holds the current segment
reversed. -/
def splitAllAux (sep : Char) : List Char → List Char → List (List Char)
  | acc, [] => [acc.reverse]
  | acc, c :: cs =>
    if c = sep then acc.reverse :: splitAllAux sep [] cs
    else splitAllAux sep (c :: acc) cs

/-- Model of `String.prototype.split` with a single-character separator. -/
def splitAllChar (sep : Char) (s : List Char) : List (List Char) :=
  splitAllAux sep [] s

/-- Auxiliary for `jsSplitWs`: `cur` is the current segment reversed,
`lastWs` records whether the previous character was whitespace (a run of
whitespace is a single separator). -/
def jsSplitWsAux : List Char → Bool → List Char → List (List Char)
  | cur, _, [] => [cur.reverse]
  | cur, lastWs, c :: cs =>
    if isJsWs c then
      if lastWs then jsSplitWsAux cur true cs
      else cur.reverse :: jsSplitWsAux [] true cs
    else jsSplitWsAux (c :: cur) false cs

/-- Model of `s.split(whitespace-run regex)`: segments between maximal
whitespace runs, with an empty leading/trailing segment when the string
starts/ends with whitespace, exactly as in JS. -/
def jsSplitWs (s : List Char) : List (List Char) :=
  jsSplitWsAux [] false s

/-- Article record produced by the extraction passes (source interface
`Article`; `content` is never set by the core extractor and is omitted). -/
structure Article where
  title : String
  summary : String
  url : String
  category : Option String
  readTime : Option String
deriving DecidableEq

/-! ## Similarity metric and deduplication (source `similarity`,
    `deduplicateArticles`) -/

/-- Model of the source `similarity(str1, str2)`: 1 on case-insensitive
equality, 0.9 when one lowered string contains the other, otherwise the
number of distinct shared words divided by the larger distinct-word count
(`Math.max(words1.size, words2.size)`). -/
def similarity (str1 str2 : String) : ℚ :=
  let s1 := jsToLowerL str1.data
  let s2 := jsToLowerL str2.data
  if s1 = s2 then 1
  else if containsSub s1 s2 || containsSub s2 s1 then (9 : ℚ) / 10
  else
    let words1 := (jsSplitWs s1).dedup
    let words2 := (jsSplitWs s2).dedup
    let inter := words1.filter (fun w => decide (w ∈ words2))
    (inter.length : ℚ) / (max words1.length words2.length : ℚ)

/-- Distinct-word set of a (already lowercased) string, as a `Finset`; used
by the spec-side formulations of the similarity metric. -/
def wordFinset (s : List Char) : Finset (List Char) :=
  (jsSplitWs s).toFinset

/-- Modelled from the spec: similarity as the claim words it, with the
word-overlap fallback being the Jaccard overlap — intersection size divided
by the UNION size.  Used to exhibit where the claim diverges from the
code. -/
def specSimilarityJaccard (a b : String) : ℚ :=
  let s1 := jsToLowerL a.data
  let s2 := jsToLowerL b.data
  if s1 = s2 then 1
  else if s2 <:+: s1 ∨ s1 <:+: s2 then (9 : ℚ) / 10
  else ((wordFinset s1 ∩ wordFinset s2).card : ℚ) / ((wordFinset s1 ∪ wordFinset s2).card : ℚ)

/-- Amended spec-side similarity: the fallback divides the intersection size
by the size of the larger word set, as the code does. -/
def specSimilarityMax (a b : String) : ℚ :=
  let s1 := jsToLowerL a.data
  let s2 := jsToLowerL b.data
  if s1 = s2 then 1
  else if s2 <:+: s1 ∨ s1 <:+: s2 then (9 : ℚ) / 10
  else ((wordFinset s1 ∩ wordFinset s2).card : ℚ) / (max (wordFinset s1).card (wordFinset s2).card : ℚ)

/-- Deduplication key of an article: its URL, or the lowercased title when
the URL is empty (source `article.url || article.title.toLowerCase()`). -/
def dedupeKey (a : Article) : String :=
  if a.url = "" then jsToLowerS a.title else a.url

/-- Test whether the already-accepted list contains a near-duplicate of `a`
(source `unique.find(u => similarity > 0.8)`). -/
def isDupOf (unique : List Article) (a : Article) : Bool :=
  unique.any (fun u => decide ((4 : ℚ) / 5 < similarity u.title a.title))

/-- Loop of the source `deduplicateArticles`: `seen` collects keys of every
processed article, `unique` the accepted ones in order. -/
def dedupeAux : List Article → List String → List Article → List Article
  | [], _, unique => unique
  | a :: rest, seen, unique =>
    if dedupeKey a ∈ seen then dedupeAux rest seen unique
    else if isDupOf unique a then dedupeAux rest (dedupeKey a :: seen) unique
    else dedupeAux rest (dedupeKey a :: seen) (unique ++ [a])

/-- Model of the source `deduplicateArticles`. -/
def deduplicateArticles (articles : List Article) : List Article :=
  dedupeAux articles [] []

/-! ## Sponsored-content classifier (source `isSponsoredContent`) -/

/-- Consume a literal from the front of a string, case-insensitively when
`ci` is true; returns the remainder on success. -/
def litAtCI : Bool → List Char → List Char → Option (List Char)
  | _, [], s => some s
  | _, _ :: _, [] => none
  | ci, p :: ps, c :: cs =>
    if (if ci then Char.toLower c == Char.toLower p else c == p) then litAtCI ci ps cs
    else none

/-- Match the tail of the regex `(\d+ ws* MLIT ws* RLIT)` at the front of a
string: an opening parenthesis, one or more digits (returned), optional
whitespace, the literal `mlit`, optional whitespace, the literal `rlit`, and
a closing parenthesis.  `ci` selects case-insensitive literal matching. -/
def parenDigitsAt (ci : Bool) (mlit rlit : List Char) : List Char → Option (List Char)
  | '(' :: r =>
    let ds := r.takeWhile Char.isDigit
    if ds.isEmpty then none
    else
      match litAtCI ci mlit ((r.dropWhile Char.isDigit).dropWhile isJsWs) with
      | none => none
      | some r2 =>
        match litAtCI ci rlit (r2.dropWhile isJsWs) with
        | none => none
        | some r3 =>
          match r3 with
          | ')' :: _ => some ds
          | _ => none
  | _ => none

/-- Search every position of `s` for a match of the parenthesised read-time
regex `(\d+ ws* minute ws* read)`, case-insensitively: model of
`/\(\d+\s*minute\s*read\)/i.test(text)`. -/
def hasMinuteReadTag : List Char → Bool
  | [] => false
  | c :: cs =>
    (parenDigitsAt true ("minute".data) ("read".data) (c :: cs)).isSome || hasMinuteReadTag cs

/-- Sponsor indicator substrings of the source `isSponsoredContent`. -/
def sponsorIndicators : List String :=
  ["sponsor", "sponsored", "advertisement", "ad:", "promoted",
   "partner content", "paid content", "brought to you by"]

/-- Model of the source `isSponsoredContent(text)`: a sponsor indicator
occurs in the lowercased text and no `(N minute read)` tag occurs. -/
def isSponsoredContentL (text : List Char) : Bool :=
  let lowerText := jsToLowerL text
  let hasSponsorTag := sponsorIndicators.any (fun ind => containsSub lowerText ind.data)
  let hasMinuteRead := hasMinuteReadTag text
  hasSponsorTag && !hasMinuteRead

/-- String-level wrapper of `isSponsoredContent`. -/
def isSponsoredContent (text : String) : Bool :=
  isSponsoredContentL text.data

/-! ## Orchestrator skip logic (source `processEmail`, `shouldSkipEmail`) -/

/-- Subject keywords of the source `shouldSkipEmail`. -/
def skipKeywords : List String :=
  ["confirm", "welcome", "verify", "subscription", "thank you"]

/-- Model of the source `shouldSkipEmail(subject, text)`: a skip keyword in
the lowercased subject, OR a body shorter than 500 characters. -/
def shouldSkipEmail (subject text : String) : Bool :=
  let lowerSubject := jsToLowerL subject.data
  skipKeywords.any (fun k => containsSub lowerSubject k.data) || decide (text.data.length < 500)

/-- Milliseconds in the 24-hour freshness window (`oneDayAgo`). -/
def MS_PER_DAY : Int := 86400000

/-- Early-exit decision of `processEmail`: the message is skipped when it is
older than 24 hours (timestamps in milliseconds) or `shouldSkipEmail`
fires.  The calendar-day subtraction `setDate(getDate() - 1)` is modelled
as 24 hours. -/
def emailSkipped (subject text : String) (emailDate now : Int) : Bool :=
  decide (emailDate < now - MS_PER_DAY) || shouldSkipEmail subject text

/-- Modelled from the spec (claim C8's wording): skip on age, or on the
conjunction of a short body and a subject keyword. -/
def specEmailSkipped (subject text : String) (emailDate now : Int) : Bool :=
  decide (emailDate < now - MS_PER_DAY) ||
    (decide (text.data.length < 500) &&
      skipKeywords.any (fun k => containsSub (jsToLowerL subject.data) k.data))

/-! ## URL resolver (source `extractRealUrl` and its helpers) -/

/-- Hexadecimal digit value, both cases. -/
def hexVal (c : Char) : Option Nat :=
  if c.isDigit then some (c.toNat - 48)
  else if 'A' ≤ c ∧ c ≤ 'F' then some (c.toNat - 55)
  else if 'a' ≤ c ∧ c ≤ 'f' then some (c.toNat - 87)
  else none

/-- Read one percent-escape `%XX` from the front of the list, returning the
byte value and the remainder. -/
def pctByte : List Char → Option (Nat × List Char)
  | '%' :: a :: b :: r =>
    match hexVal a, hexVal b with
    | some x, some y => some (x * 16 + y, r)
    | _, _ => none
  | _ => none

/-- Worker for `decodeURIComponentL`.  A `%`-escape yields a byte; a leading
byte of a multi-byte UTF-8 sequence must be followed immediately by the
right number of `%XX` continuation escapes, as in the ECMAScript
specification of `decodeURIComponent`; a malformed escape or byte sequence
is a `URIError`, modelled as `none`. -/
def decodeURICore : Nat → List Char → Option (List Char)
  | _, [] => some []
  | 0, _ => none
  | fuel + 1, c :: cs =>
    if c = '%' then
      match pctByte (c :: cs) with
      | none => none
      | some (b1, r1) =>
        if b1 < 0x80 then (decodeURICore fuel r1).map (fun t => Char.ofNat b1 :: t)
        else if 0xC2 ≤ b1 ∧ b1 ≤ 0xDF then
          match pctByte r1 with
          | some (b2, r2) =>
            if 0x80 ≤ b2 ∧ b2 ≤ 0xBF then
              (decodeURICore fuel r2).map
                (fun t => Char.ofNat ((b1 - 0xC0) * 64 + (b2 - 0x80)) :: t)
            else none
          | none => none
        else if 0xE0 ≤ b1 ∧ b1 ≤ 0xEF then
          match pctByte r1 with
          | some (b2, r2) =>
            let lo2 := if b1 = 0xE0 then 0xA0 else 0x80
            let hi2 := if b1 = 0xED then 0x9F else 0xBF
            if lo2 ≤ b2 ∧ b2 ≤ hi2 then
              match pctByte r2 with
              | some (b3, r3) =>
                if 0x80 ≤ b3 ∧ b3 ≤ 0xBF then
                  (decodeURICore fuel r3).map
                    (fun t => Char.ofNat ((b1 - 0xE0) * 4096 + (b2 - 0x80) * 64 + (b3 - 0x80)) :: t)
                else none
              | none => none
            else none
          | none => none
        else if 0xF0 ≤ b1 ∧ b1 ≤ 0xF4 then
          match pctByte r1 with
          | some (b2, r2) =>
            let lo2 := if b1 = 0xF0 then 0x90 else 0x80
            let hi2 := if b1 = 0xF4 then 0x8F else 0xBF
            if lo2 ≤ b2 ∧ b2 ≤ hi2 then
              match pctByte r2 with
              | some (b3, r3) =>
                if 0x80 ≤ b3 ∧ b3 ≤ 0xBF then
                  match pctByte r3 with
                  | some (b4, r4) =>
                    if 0x80 ≤ b4 ∧ b4 ≤ 0xBF then
                      (decodeURICore fuel r4).map
                        (fun t => Char.ofNat ((b1 - 0xF0) * 262144 + (b2 - 0x80) * 4096 +
                          (b3 - 0x80) * 64 + (b4 - 0x80)) :: t)
                    else none
                  | none => none
                else none
              | none => none
            else none
          | none => none
        else none
    else (decodeURICore fuel cs).map (fun t => c :: t)

/-- Model of the JS builtin `decodeURIComponent`; `none` is a thrown
`URIError`. -/
def decodeURIComponentL (s : List Char) : Option (List Char) :=
  decodeURICore s.length s

/-- URL value as produced by the model of the WHATWG `URL` constructor: the
scheme, the host-and-path section (host already canonicalised: percent-
decoded and lowercased, see `canonHostPath`), the query as key/value
pairs, and the raw fragment (with its `#`).  IDNA mapping,
forbidden-host-code-point validation and percent-re-encoding of path and
query are outside the model. -/
structure JsUrl where
  scheme : List Char
  hostPath : List Char
  queryPairs : List (List Char × List Char)
  fragment : List Char

/-- Parse a raw query string into URLSearchParams-style pairs: split on
ampersands, drop empty segments, split each segment at its first equals
sign (a missing value is the empty string). -/
def parsePairs (q : List Char) : List (List Char × List Char) :=
  (splitAllChar '&' q).filterMap fun seg =>
    if seg.isEmpty then none
    else
      some ((splitFirst '=' seg).1,
        match (splitFirst '=' seg).2 with
        | none => []
        | some v => v)

/-- Characters the WHATWG URL parser removes from the raw input before
parsing: ASCII tab and the newline characters. -/
def stripTabNewline (s : List Char) : List Char :=
  s.filter (fun c => !(c == '\t' || c == '\n' || c == '\r'))

/-- Percent-decode a host section: every `%XX` escape with two hexadecimal
digits becomes the code point of its byte (as the WHATWG host parser does
before domain processing); other characters, including malformed escapes,
pass through.  Fuel-driven with the input length. -/
def pctDecodeHost : Nat → List Char → List Char
  | _, [] => []
  | 0, s => s
  | fuel + 1, c :: cs =>
    if c = '%' then
      match pctByte (c :: cs) with
      | some (b, r) => Char.ofNat b :: pctDecodeHost fuel r
      | none => c :: pctDecodeHost fuel cs
    else c :: pctDecodeHost fuel cs

/-- Host percent-decoding with the fuel instantiated. -/
def pctDecodeHostL (s : List Char) : List Char :=
  pctDecodeHost s.length s

/-- Canonicalise the host of a host-and-path section: the part before the
first slash is percent-decoded and lowercased, as the WHATWG `URL`
constructor does for special-scheme URLs; the path is kept as written. -/
def canonHostPath (hp : List Char) : List Char :=
  jsToLowerL (pctDecodeHostL ((splitFirst '/' hp).1)) ++
    (match (splitFirst '/' hp).2 with
     | none => []
     | some p => '/' :: p)

/-- Body of the URL parser once the scheme has been recognised: split off
the fragment at the first hash, the query at the first question mark,
canonicalise the host; an empty host is a parse failure. -/
def parseUrlRest (scheme rest : List Char) : Option JsUrl :=
  if ((splitFirst '/' (splitFirst '?' (splitFirst '#' rest).1).1).1).isEmpty then none
  else
    some ⟨scheme, canonHostPath (splitFirst '?' (splitFirst '#' rest).1).1,
      (match (splitFirst '?' (splitFirst '#' rest).1).2 with
       | none => []
       | some q => parsePairs q),
      (match (splitFirst '#' rest).2 with
       | none => []
       | some h => '#' :: h)⟩

/-- Model of `new URL(s)` for http(s) URLs; `none` is a thrown `TypeError`
(no http(s) scheme, or an empty host).  Mirroring the WHATWG constructor,
ASCII tab and newline characters are stripped from the input and the host
is percent-decoded and lowercased. -/
def parseUrl (s : List Char) : Option JsUrl :=
  if startsWithL (stripTabNewline s) ("https://".data) then
    parseUrlRest ("https".data) ((stripTabNewline s).drop 8)
  else if startsWithL (stripTabNewline s) ("http://".data) then
    parseUrlRest ("http".data) ((stripTabNewline s).drop 7)
  else none

/-- Join query pairs with ampersands, `key=value` each, as
`URLSearchParams.toString` does. -/
def joinAmp : List (List Char × List Char) → List Char
  | [] => []
  | [(k, v)] => k ++ '=' :: v
  | (k, v) :: p :: ps => k ++ '=' :: v ++ '&' :: joinAmp (p :: ps)

/-- Model of `url.toString()`: scheme, separator, host-and-path (with the
root slash the WHATWG serialiser adds when the path is empty), the
re-serialised query when nonempty, and the fragment. -/
def urlToString (u : JsUrl) : List Char :=
  u.scheme ++ ("://".data) ++
    (if u.hostPath.contains '/' then u.hostPath else u.hostPath ++ ['/']) ++
    (match u.queryPairs with
     | [] => []
     | p :: ps => '?' :: joinAmp (p :: ps)) ++
    u.fragment

/-- Tracking parameters removed by `extractRealUrl`. -/
def trackingParams : List String :=
  ["utm_source", "utm_medium", "utm_campaign", "utm_content", "utm_term",
   "utm_id", "gclid", "fbclid", "mc_eid", "mc_cid", "_hsenc", "_hsmi"]

/-- Model of the `trackingParams.forEach(p => urlObj.searchParams.delete(p))`
loop. -/
def deleteTrackingParams (u : JsUrl) : JsUrl :=
  ⟨u.scheme, u.hostPath,
    u.queryPairs.filter (fun p => !(trackingParams.any (fun t => t.data == p.1))),
    u.fragment⟩

/-- Model of `url.replace(slash-at-end regex, empty)`: drop one trailing
slash. -/
def stripTrailingSlash (s : List Char) : List Char :=
  match s.reverse with
  | '/' :: r => r.reverse
  | _ => s

/-- Parse, delete tracking parameters, serialise, strip a trailing slash:
the body of the inner `try` blocks of `extractRealUrl`; `none` is the
`new URL` throw. -/
def cleanViaUrlParse (realUrl : List Char) : Option (List Char) :=
  match parseUrl realUrl with
  | none => none
  | some u => some (stripTrailingSlash (urlToString (deleteTrackingParams u)))

/-- Skip domains of the source (`SKIP_DOMAINS`). -/
def SKIP_DOMAINS : List String :=
  ["tldrnewsletter.com", "tldr.tech", "advertise.tldr.tech", "unsubscribe",
   "manage", "tracking.tldrnewsletter.com", "linkedin.com"]

/-- Tracking-redirect host prefix of the source (`TRACKING_URL_PREFIX`). -/
def TRACKING_URL_PREFIX : String := "https://tracking.tldrnewsletter.com"

/-- Model of `SKIP_DOMAINS.some(d => url.toLowerCase().includes(d.toLowerCase()))`. -/
def hitsSkipDomain (url : List Char) : Bool :=
  SKIP_DOMAINS.any (fun d => containsSub (jsToLowerL url) (jsToLowerL d.data))

/-- Remainder of `s` after the first occurrence of `pat`, when it occurs
(models `s.split(pat)[1] ...` for a separator that occurs). -/
def findSubAfter (pat : List Char) : List Char → Option (List Char)
  | [] => if pat.isEmpty then some [] else none
  | c :: cs =>
    if startsWithL (c :: cs) pat then some ((c :: cs).drop pat.length)
    else findSubAfter pat cs

/-- Anchored match of the regex `https? colon-slash-slash CLS-plus` at the
front of `s`, where `cls` is the character class of the final plus;
returns the whole match (greedy). -/
def matchHttpWith (cls : Char → Bool) (s : List Char) : Option (List Char) :=
  if startsWithL s ("https://".data) then
    let run := (s.drop 8).takeWhile cls
    if run.isEmpty then none else some (("https://".data) ++ run)
  else if startsWithL s ("http://".data) then
    let run := (s.drop 7).takeWhile cls
    if run.isEmpty then none else some (("http://".data) ++ run)
  else none

/-- Anchored URL match with the class `[^\s]` (source direct-match regex). -/
def matchHttpUrlAt (s : List Char) : Option (List Char) :=
  matchHttpWith (fun c => !isJsWs c) s

/-- Leftmost match of an anchored matcher over all positions of a string. -/
def firstSome (f : List Char → Option (List Char)) : List Char → Option (List Char)
  | [] => f []
  | c :: cs =>
    match f (c :: cs) with
    | some r => some r
    | none => firstSome f cs

/-- Search for the fallback regex of the tracking branch, class
`[^\s?"']`. -/
def searchHttpUrlNoQ (s : List Char) : Option (List Char) :=
  firstSome (matchHttpWith (fun c => !isJsWs c && !(c == '?') && !(c == '"') && !(c == '\''))) s

/-- Search for the text-pass URL regex, class `[^\s]`. -/
def searchHttpUrl (s : List Char) : Option (List Char) :=
  firstSome matchHttpUrlAt s

/-- Test for the direct-URL guard regex (`^https?:` then two slashes). -/
def startsWithHttp (s : List Char) : Bool :=
  startsWithL s ("https://".data) || startsWithL s ("http://".data)

/-- First http(s) URL found in a twice-decoded tracking segment: the
anchored direct match, else the searched fallback match, else empty
(source `realUrl` after the two match attempts). -/
def rawUrlIn (decodedUrl : List Char) : List Char :=
  match matchHttpUrlAt decodedUrl with
  | some m => m
  | none =>
    match searchHttpUrlNoQ decodedUrl with
    | some m => m
    | none => []

/-- Cleaned URL, or the raw URL when `new URL` throws (the inner
`try`/`catch` of the tracking branch). -/
def cleanedOrRaw (r : List Char) : List Char :=
  match cleanViaUrlParse r with
  | some c => c
  | none => r

/-- Body of the tracking-redirect branch of `extractRealUrl` (the outer
`try` block): find the segment after `/CL0/`, percent-decode it twice,
locate the first http(s) URL, clean it (with the inner `try`/`catch`
falling back to the raw URL), and reject skip-listed results.
`Except.ok (some r)` is the early `return realUrl`, `Except.ok none` falls
through to the direct-URL handling, `Except.error` is an exception thrown
inside the `try` (a `URIError` from decoding). -/
def trackingExtract (tl : List Char) : Except String (Option (List Char)) :=
  match findSubAfter ("/CL0/".data) tl with
  | none => Except.ok none
  | some afterCl =>
    match decodeURIComponentL (afterCl.takeWhile (fun c => !(c == '/'))) with
    | none => Except.error ("URIError")
    | some d1 =>
      match decodeURIComponentL d1 with
      | none => Except.error ("URIError")
      | some decodedUrl =>
        if (rawUrlIn decodedUrl).isEmpty then Except.ok none
        else
          if hitsSkipDomain (cleanedOrRaw (rawUrlIn decodedUrl)) then Except.ok none
          else Except.ok (some (cleanedOrRaw (rawUrlIn decodedUrl)))

/-- Early-return value of the tracking branch as seen by the rest of
`extractRealUrl`: the branch runs only when the input contains the
tracking prefix, and its `catch` turns any thrown error into a
fall-through. -/
def trackedResult (tl : List Char) : Option (List Char) :=
  if containsSub tl (TRACKING_URL_PREFIX.data) then
    match trackingExtract tl with
    | Except.ok r => r
    | Except.error _ => none
  else none

/-- Model of the source `extractRealUrl` with exceptions made explicit: the
tracking branch's `try`/`catch` turns a `URIError` into a fall-through, the
direct branch cleans the URL with a `catch` fallback that drops the query
and a trailing slash, and every remaining path returns the empty-string
sentinel. -/
def extractRealUrlE (trackingUrl : String) : Except String String :=
  if trackingUrl.data.isEmpty then Except.ok ("")
  else
    match trackedResult trackingUrl.data with
    | some r => Except.ok (String.mk r)
    | none =>
      if startsWithHttp trackingUrl.data then
        if hitsSkipDomain trackingUrl.data then Except.ok ("")
        else
          match parseUrl trackingUrl.data with
          | some u =>
            Except.ok (String.mk (stripTrailingSlash (urlToString (deleteTrackingParams u))))
          | none => Except.ok (String.mk (stripTrailingSlash (splitFirst '?' trackingUrl.data).1))
      else Except.ok ("")

/-- Total wrapper of `extractRealUrlE` (claim C6 proves the error arm is
unreachable). -/
def extractRealUrl (trackingUrl : String) : String :=
  match extractRealUrlE trackingUrl with
  | Except.ok r => r
  | Except.error _ => ""

/-! ## Summary normaliser (source `cleanSummary`,
    `extractCompleteSentences`, `isCompleteSentence`) -/

/-- Greedy Kleene star over a one-character class followed by a
continuation, with backtracking: consume as many class characters as
possible, retrying the continuation at shorter runs on failure.  This is
the JS semantics of `CLS*REST` for a single-character class. -/
def starThen (cls : Char → Bool) (k : List Char → Option (List Char)) : List Char → Option (List Char)
  | [] => k []
  | c :: cs =>
    if cls c then
      match starThen cls k cs with
      | some r => some r
      | none => k (c :: cs)
    else k (c :: cs)

/-- Class `[\s\w]` of the promotional-phrase regexes. -/
def isWsWord (c : Char) : Bool :=
  isJsWs c || isWordChar c

/-- Always-succeeding continuation (a trailing `CLS*` in a pattern). -/
def matchEnd (s : List Char) : Option (List Char) :=
  some s

/-- Anchored matcher for one promotional pattern: a case-insensitive
literal, then an optional `[\s\w]*` or `.*` tail ending in a second
literal.  Each source regex below is built from these pieces. -/
def litThenStar (lit : List Char) (cls : Char → Bool) (k : List Char → Option (List Char))
    (s : List Char) : Option (List Char) :=
  match litAtCI true lit s with
  | none => none
  | some r => starThen cls k r

/-- Global regex replacement with the empty string: scan left to right,
dropping each (nonempty) match and continuing after it.  Fuel-driven with
the input length. -/
def replAll (m : List Char → Option (List Char)) : Nat → List Char → List Char
  | _, [] => []
  | 0, s => s
  | fuel + 1, c :: cs =>
    match m (c :: cs) with
    | some rest => replAll m fuel rest
    | none => c :: replAll m fuel cs

/-- Global replacement with the fuel instantiated. -/
def replaceAllWith (m : List Char → Option (List Char)) (s : List Char) : List Char :=
  replAll m s.length s

/-- Continuation for the `(\s|$)` tail of the tracking-code pattern. -/
def wsOrEnd : List Char → Option (List Char)
  | [] => some []
  | c :: cs => if isJsWs c then some cs else none

/-- Anchored matcher of `=[0-9A-F]{3,}(\s|$)` (tracking codes). -/
def mEqHex : List Char → Option (List Char)
  | '=' :: a :: b :: c :: r =>
    if isHexUp a && isHexUp b && isHexUp c then starThen isHexUp wsOrEnd r else none
  | _ => none

/-- Anchored matcher of two-or-more dots (`\.`-brace-2-comma pattern,
greedy). -/
def mMultiDots : List Char → Option (List Char)
  | '.' :: '.' :: r => some (r.dropWhile (fun c => c == '.'))
  | _ => none

/-- Replacement for the anchored leading-dots pattern (`^\.+`, first match
only). -/
def replLeadingDots : List Char → List Char
  | '.' :: r => r.dropWhile (fun c => c == '.')
  | s => s

/-- Replacement for the accidental string pattern `'.'` in the source's
pattern array: `String.prototype.replace` with a string removes only the
first occurrence. -/
def replFirstDot : List Char → List Char
  | [] => []
  | '.' :: r => r
  | c :: r => c :: replFirstDot r

/-- Promotional-phrase removal steps of `cleanSummary`, in source order;
each step is one `cleaned.replace(pattern, empty)`. -/
def promoSteps : List (List Char → List Char) :=
  [replaceAllWith (litAtCI true ("(sponsor)".data)),
   replaceAllWith (litThenStar ("tldr".data) isWsWord (litAtCI true ("newsletter".data))),
   replaceAllWith (litThenStar ("sign up for".data) isWsWord matchEnd),
   replaceAllWith (litThenStar ("subscribe to".data) isWsWord matchEnd),
   replaceAllWith (litAtCI true ("get this newsletter".data)),
   replaceAllWith (litAtCI true ("advertise with us".data)),
   replaceAllWith (litThenStar ("together with".data) isWsWord matchEnd),
   replaceAllWith (litThenStar ("sponsored by".data) isWsWord matchEnd),
   replaceAllWith (litAtCI true ("check out tldr".data)),
   replaceAllWith (litThenStar ("join".data) isDotChar (litAtCI true ("tldr".data))),
   replaceAllWith (litAtCI true ("tldr readers".data)),
   replaceAllWith (litThenStar ("exclusive".data) isDotChar (litAtCI true ("tldr".data))),
   replaceAllWith mEqHex,
   replLeadingDots,
   replaceAllWith mMultiDots,
   replFirstDot]

/-- Apply every promotional-phrase step in order, trimming after each, as
the source loop does. -/
def stripPromo (s : List Char) : List Char :=
  promoSteps.foldl (fun acc f => jsTrim (f acc)) s

/-- Cleaned text of `cleanSummary` before sentence extraction: whitespace
collapsed, trimmed, promotional phrases removed. -/
def cleanedOfL (text : List Char) : List Char :=
  stripPromo (jsTrim (collapseWsL text))

/-- Model of the source `isCompleteSentence`. -/
def isCompleteSentenceL (t : List Char) : Bool :=
  if t.length < 20 then false
  else if !(match t with
            | c :: _ => 'A' ≤ c && c ≤ 'Z'
            | [] => false) then false
  else if !(match t.getLast? with
            | some c => isTermChar c
            | none => false) then false
  else
    let verbIndicators : List String :=
      [" is ", " are ", " was ", " were ", " will ", " would ",
       " has ", " have ", " had ", " can ", " could ", " may ",
       " might ", " must ", " should ", " to ", " said ", " says ",
       "ing ", "ed "]
    verbIndicators.any (fun p => containsSub (jsToLowerL t) (jsToLowerL p.data))

/-- Raw sentence chunks of `text.match` with the global regex
`[^.!?]+[.!?]+`: maximal runs of non-terminators followed by maximal runs
of terminators; a trailing run without a terminator yields no chunk. -/
def sentenceChunks : Nat → List Char → List (List Char)
  | 0, _ => []
  | fuel + 1, s =>
    let s1 := s.dropWhile isTermChar
    match s1 with
    | [] => []
    | _ :: _ =>
      let a := s1.takeWhile (fun c => !isTermChar c)
      let r := s1.dropWhile (fun c => !isTermChar c)
      match r with
      | [] => []
      | _ :: _ =>
        (a ++ r.takeWhile isTermChar) :: sentenceChunks fuel (r.dropWhile isTermChar)

/-- Append extra characters to the last element of a list of strings
(`sentences[sentences.length - 1] += ...`). -/
def appendToLast : List (List Char) → List Char → List (List Char)
  | [], _ => []
  | [x], extra => [x ++ extra]
  | x :: y :: xs, extra => x :: appendToLast (y :: xs) extra

/-- Accumulation loop of `extractCompleteSentences`: complete sentences are
pushed, fragments are appended to the preceding complete sentence (and are
lost, as in the source, when no complete sentence precedes them — the JS
code writes to array index -1 in that case). -/
def buildSentences : List (List Char) → List (List Char) → List Char → List (List Char)
  | [], sentences, cur =>
    if cur.isEmpty then sentences
    else
      match sentences with
      | [] => sentences
      | _ :: _ => appendToLast sentences (' ' :: cur)
  | chunk :: rest, sentences, cur =>
    let trimmed := jsTrim chunk
    if isCompleteSentenceL trimmed then
      if cur.isEmpty then buildSentences rest (sentences ++ [trimmed]) []
      else
        match sentences with
        | [] => buildSentences rest [trimmed] []
        | _ :: _ => buildSentences rest (appendToLast sentences (' ' :: cur) ++ [trimmed]) []
    else
      buildSentences rest sentences (if cur.isEmpty then trimmed else cur ++ ' ' :: trimmed)

/-- Model of the source `extractCompleteSentences`. -/
def extractCompleteSentencesL (text : List Char) : List (List Char) :=
  (buildSentences (sentenceChunks text.length text) [] []).filter (fun s => decide (20 < s.length))

/-- Join sentences with single spaces (`sentences.join(space)`). -/
def joinSpace : List (List Char) → List Char
  | [] => []
  | [x] => x
  | x :: y :: xs => x ++ ' ' :: joinSpace (y :: xs)

/-- First-three-sentences summary of the sentence branch of
`cleanSummary`. -/
def summaryJoined (cleaned : List Char) : List Char :=
  let sentences := extractCompleteSentencesL cleaned
  joinSpace (sentences.take (min 3 sentences.length))

/-- Index of the last space of a list, as `String.prototype.lastIndexOf`
(`none` for the JS result -1). -/
def lastSpaceIdx (s : List Char) : Option Nat :=
  (s.reverse.findIdx? (fun c => c == ' ')).map (fun i => s.length - 1 - i)

/-- Model of the source `cleanSummary`: the source's local variables
`cleaned`, `sentences`, `summary` and `truncated` are the named helper
functions `cleanedOfL`, `extractCompleteSentencesL`, `summaryJoined` and
the 300-character `take`. -/
def cleanSummaryL (text : List Char) : List Char :=
  if text.isEmpty then []
  else
    if !(extractCompleteSentencesL (cleanedOfL text)).isEmpty then
      if 500 < (summaryJoined (cleanedOfL text)).length then
        (summaryJoined (cleanedOfL text)).take 497 ++ ("...".data)
      else summaryJoined (cleanedOfL text)
    else if 300 < (cleanedOfL text).length then
      match lastSpaceIdx ((cleanedOfL text).take 300) with
      | some idx =>
        if 200 < idx then ((cleanedOfL text).take 300).take idx ++ ("...".data)
        else (cleanedOfL text).take 300 ++ ("...".data)
      | none => (cleanedOfL text).take 300 ++ ("...".data)
    else cleanedOfL text

/-- String-level wrapper of `cleanSummary`. -/
def cleanSummary (text : String) : String :=
  String.mk (cleanSummaryL text.data)

/-! ## Text extraction pass (source `parseTextArticles`, `looksLikeTitle`,
    `cleanTitle`) -/

/-- Model of the source `looksLikeTitle`: short, starts with an uppercase
letter, and either mentions a read time or contains no sentence terminator
after the first character. -/
def looksLikeTitleL (t : List Char) : Bool :=
  decide (t.length < 150) &&
  (match t with
   | c :: _ => 'A' ≤ c && c ≤ 'Z'
   | [] => false) &&
  (containsSub t ("minute read".data) ||
    (match t with
     | c :: rest => ('A' ≤ c && c ≤ 'Z') && rest.all (fun x => !isTermChar x)
     | [] => false))

/-- Model of the source `cleanTitle`: strip leading non-word characters,
collapse whitespace, remove the marker emoji, trim.  (The JS emoji class
operates on UTF-16 units; the model removes the emoji as code points.) -/
def cleanTitleL (t : List Char) : List Char :=
  let emoji : List Char := ['🚀', '📱', '💻', '🎁', '⚡', '🔗', '📈', '🤖']
  jsTrim ((collapseWsL (t.dropWhile (fun c => !isWordChar c))).filter
    (fun c => !(emoji.contains c)))

/-- Tail matcher of the parenthesised read-time regexes: optional
whitespace then `(digits ws* MLIT ws* RLIT)`; returns the digit group. -/
def markerParen (ci : Bool) (mlit rlit : List Char) (rest : List Char) : Option (List Char) :=
  parenDigitsAt ci mlit rlit (rest.dropWhile isJsWs)

/-- Tail matcher of the unparenthesised read-time regexes: optional
whitespace, digits, optional whitespace, `MLIT`, optional whitespace,
`RLIT`; returns the digit group. -/
def markerBare (ci : Bool) (mlit rlit : List Char) (rest : List Char) : Option (List Char) :=
  let r0 := rest.dropWhile isJsWs
  let ds := r0.takeWhile Char.isDigit
  if ds.isEmpty then none
  else
    match litAtCI ci mlit ((r0.dropWhile Char.isDigit).dropWhile isJsWs) with
    | none => none
    | some r2 =>
      match litAtCI ci rlit (r2.dropWhile isJsWs) with
      | none => none
      | some _ => some ds

/-- Lazy-group split for the anchored regexes `(.+?)` followed by a marker:
find the shortest nonempty prefix whose remainder matches `markAt`;
returns the prefix (group 1) and the digit group. -/
def lazySplit (markAt : List Char → Option (List Char)) :
    List Char → List Char → Option (List Char × List Char)
  | _, [] => none
  | accRev, c :: rest =>
    match markAt rest with
    | some ds => some ((c :: accRev).reverse, ds)
    | none => lazySplit markAt (c :: accRev) rest

/-- The four read-time regexes of `parseTextArticles`, tried in source
order: parenthesised case-insensitive, parenthesised uppercase,
unparenthesised case-insensitive, unparenthesised uppercase. -/
def readTimeMatchL (line : List Char) : Option (List Char × List Char) :=
  match lazySplit (markerParen true ("minute".data) ("read".data)) [] line with
  | some r => some r
  | none =>
    match lazySplit (markerParen false ("MINUTE".data) ("READ".data)) [] line with
    | some r => some r
    | none =>
      match lazySplit (markerBare true ("minute".data) ("read".data)) [] line with
      | some r => some r
      | none => lazySplit (markerBare false ("MINUTE".data) ("READ".data)) [] line

/-- Summary accumulation loop of `parseTextArticles`: lines `i+1 .. i+4`
that do not look like titles, stopping once the accumulated text exceeds
200 characters. -/
def summaryLoop (lines : List (List Char)) : List Nat → List Char → List Char
  | [], acc => acc
  | j :: js, acc =>
    if h : j < lines.length then
      let lj := lines.get ⟨j, h⟩
      if !looksLikeTitleL lj then
        let acc2 := acc ++ lj ++ [' ']
        if 200 < acc2.length then acc2 else summaryLoop lines js acc2
      else summaryLoop lines js acc
    else summaryLoop lines js acc

/-- Summary text gathered for the candidate at line `i`. -/
def summaryAt (lines : List (List Char)) (i : Nat) : List Char :=
  summaryLoop lines [i + 1, i + 2, i + 3, i + 4] []

/-- URL window search of `parseTextArticles`: lines `i-2 .. i+2`, first
URL-shaped substring of each line, first one that `extractRealUrl` resolves
to a nonempty URL. -/
def urlLoop (lines : List (List Char)) : List Int → List Char
  | [] => []
  | j :: js =>
    if h : 0 ≤ j ∧ j.toNat < lines.length then
      match searchHttpUrl (lines.get ⟨j.toNat, h.2⟩) with
      | some m =>
        let u := (extractRealUrl (String.mk m)).data
        if u.isEmpty then urlLoop lines js else u
      | none => urlLoop lines js
    else urlLoop lines js

/-- Resolved URL found in the window around line `i`. -/
def urlAt (lines : List (List Char)) (i : Nat) : List Char :=
  urlLoop lines [(i : Int) - 2, (i : Int) - 1, (i : Int), (i : Int) + 1, (i : Int) + 2]

/-- Per-line candidate of `parseTextArticles`: the body of the loop for
index `i`, returning the pushed article when the line carries a read-time
marker and the candidate survives the URL, title-length and sponsor
checks. -/
def textCandidate (lines : List (List Char)) (i : Nat) : Option Article :=
  if h : i < lines.length then
    match readTimeMatchL (lines.get ⟨i, h⟩) with
    | none => none
    | some (g1, ds) =>
      if 10 < (jsTrim g1).length ∧ ¬(urlAt lines i).isEmpty then
        if isSponsoredContentL (jsTrim g1 ++ ' ' :: summaryAt lines i) then none
        else
          some ⟨String.mk (cleanTitleL (jsTrim g1)),
            String.mk
              (if (jsTrim (summaryAt lines i)).isEmpty then ("Article about ".data) ++ jsTrim g1
               else jsTrim (summaryAt lines i)),
            String.mk (urlAt lines i), none, some (String.mk (ds ++ (" min".data)))⟩
      else none
  else none

/-- Trimmed nonempty lines of the text body, as in the source. -/
def textLines (text : String) : List (List Char) :=
  ((splitAllChar '\n' text.data).map jsTrim).filter (fun l => !l.isEmpty)

/-- Model of the source `parseTextArticles`. -/
def parseTextArticles (text : String) : List Article :=
  let lines := textLines text
  (List.range lines.length).filterMap (textCandidate lines)

/-! ## General lemmas -/

lemma containsSub_iff {hay pat : List Char} : containsSub hay pat = true ↔ pat <:+: hay := by
  simp [containsSub]

/-- Distinct-element count shared between two word lists, as a `Finset`
intersection cardinality. -/
lemma filter_dedup_length (l1 l2 : List (List Char)) :
    ((l1.dedup.filter (fun w => decide (w ∈ l2.dedup)))).length =
      (l1.toFinset ∩ l2.toFinset).card := by
  rw [← List.toFinset_card_of_nodup ((List.nodup_dedup l1).filter _)]
  congr 1
  ext x
  simp [List.mem_filter, List.mem_dedup]

/-! ## Deduplication invariants -/

/-- Invariant of a list that `dedupeAux` keeps unchanged from state
`(seen, unique)`: each element's key is fresh and no element is a
near-duplicate of anything accepted before it. -/
def keepAll : List String → List Article → List Article → Prop
  | _, _, [] => True
  | seen, unique, a :: t =>
    dedupeKey a ∉ seen ∧ isDupOf unique a = false ∧
      keepAll (dedupeKey a :: seen) (unique ++ [a]) t

/-- Soundness of the dedup loop: whatever it appends satisfies `keepAll`
for any tracked subset of the seen keys. -/
lemma dedupeAux_sound (l : List Article) :
    ∀ (seenA seenT : List String) (unique : List Article),
      (∀ k, k ∈ seenT → k ∈ seenA) →
      ∃ t, dedupeAux l seenA unique = unique ++ t ∧ keepAll seenT unique t := by
  induction l with
  | nil =>
    intro seenA seenT unique _
    exact ⟨[], by simp [dedupeAux], trivial⟩
  | cons a rest ih =>
    intro seenA seenT unique hsub
    by_cases hk : dedupeKey a ∈ seenA
    · obtain ⟨t, h1, h2⟩ := ih seenA seenT unique hsub
      exact ⟨t, by simp [dedupeAux, if_pos hk, h1], h2⟩
    · by_cases hd : isDupOf unique a = true
      · obtain ⟨t, h1, h2⟩ := ih (dedupeKey a :: seenA) seenT unique
          (fun k hk2 => List.mem_cons_of_mem _ (hsub k hk2))
        exact ⟨t, by simp [dedupeAux, if_neg hk, hd, h1], h2⟩
      · obtain ⟨t, h1, h2⟩ := ih (dedupeKey a :: seenA) (dedupeKey a :: seenT) (unique ++ [a])
          (fun k hk2 => by
            rcases List.mem_cons.mp hk2 with h | h
            · exact h ▸ List.mem_cons_self _ _
            · exact List.mem_cons_of_mem _ (hsub k h))
        refine ⟨a :: t, ?_, ?_⟩
        · rw [dedupeAux, if_neg hk, if_neg (by simp [hd]), h1]
          simp
        · exact ⟨fun hc => hk (hsub _ hc), Bool.eq_false_iff.mpr hd, h2⟩

/-- Stability of the dedup loop: a `keepAll` list passes through
unchanged. -/
lemma dedupeAux_stable (t : List Article) :
    ∀ (seen : List String) (unique : List Article),
      keepAll seen unique t → dedupeAux t seen unique = unique ++ t := by
  induction t with
  | nil =>
    intro seen unique _
    simp [dedupeAux]
  | cons a t' ih =>
    intro seen unique h
    obtain ⟨h1, h2, h3⟩ := h
    rw [dedupeAux, if_neg h1, if_neg (by simp [h2]), ih _ _ h3]
    simp

/-! ## URL-resolver case lemmas (for claim C7) -/

lemma trackingExtract_ok_some {tl r : List Char}
    (h : trackingExtract tl = Except.ok (some r)) : hitsSkipDomain r = false := by
  unfold trackingExtract at h
  split at h
  · simp at h
  · split at h
    · simp at h
    · split at h
      · simp at h
      · split at h
        · simp at h
        · split at h
          · simp at h
          · next hskip =>
            injection h with h1
            obtain rfl := Option.some_inj.mp h1
            exact Bool.eq_false_iff.mpr hskip

lemma trackedResult_not_skip {tl r : List Char} (h : trackedResult tl = some r) :
    hitsSkipDomain r = false := by
  unfold trackedResult at h
  split at h
  · split at h
    · next o heq =>
      subst h
      exact trackingExtract_ok_some heq
    · simp at h
  · simp at h

lemma hitsSkipDomain_false {url : List Char} (h : hitsSkipDomain url = false)
    {d : String} (hd : d ∈ SKIP_DOMAINS) : ¬(jsToLowerL d.data <:+: jsToLowerL url) := by
  intro hinf
  rw [hitsSkipDomain, List.any_eq_false] at h
  exact absurd (containsSub_iff.mpr hinf) (by simpa using h d hd)

lemma extractRealUrl_of_E {href r : String} (h : extractRealUrlE href = Except.ok r) :
    extractRealUrl href = r := by
  unfold extractRealUrl
  rw [h]

lemma extractRealUrlE_cases (href : String) :
    extractRealUrlE href = Except.ok ("") ∨
    (∃ r, trackedResult href.data = some r ∧
      extractRealUrlE href = Except.ok (String.mk r) ∧ hitsSkipDomain r = false) ∨
    (∃ u, parseUrl href.data = some u ∧ hitsSkipDomain href.data = false ∧
      extractRealUrlE href =
        Except.ok (String.mk (stripTrailingSlash (urlToString (deleteTrackingParams u))))) ∨
    (hitsSkipDomain href.data = false ∧
      extractRealUrlE href =
        Except.ok (String.mk (stripTrailingSlash (splitFirst '?' href.data).1))) := by
  unfold extractRealUrlE
  split
  · exact Or.inl rfl
  · cases htr : trackedResult href.data with
    | some r =>
      exact Or.inr (Or.inl ⟨r, rfl, rfl, trackedResult_not_skip htr⟩)
    | none =>
      by_cases hsw : startsWithHttp href.data = true
      · rw [if_pos hsw]
        by_cases hskip : hitsSkipDomain href.data = true
        · rw [if_pos hskip]
          exact Or.inl rfl
        · rw [if_neg hskip]
          cases hp : parseUrl href.data with
          | some u =>
            exact Or.inr (Or.inr (Or.inl ⟨u, rfl, Bool.eq_false_iff.mpr hskip, rfl⟩))
          | none =>
            exact Or.inr (Or.inr (Or.inr ⟨Bool.eq_false_iff.mpr hskip, rfl⟩))
      · rw [if_neg hsw]
        exact Or.inl rfl

/-! ## Claim theorems (first group) -/

/-- Claim C1: the sponsored-content check rejects exactly when a sponsor
marker occurs in the lowercased text and no parenthesised read-time marker
occurs; `Sponsored by Acme` alone is rejected, and the same text with
`(3 minute read)` appended is accepted. -/
theorem c1_sponsor_precedence :
    (∀ text : String,
      isSponsoredContent text = true ↔
        ((∃ m ∈ sponsorIndicators, m.data <:+: jsToLowerL text.data) ∧
          ¬hasMinuteReadTag text.data = true)) ∧
    isSponsoredContent ("Sponsored by Acme") = true ∧
    isSponsoredContent ("Sponsored by Acme (3 minute read)") = false := by
  refine ⟨fun text => ?_, by decide, by decide⟩
  simp [isSponsoredContent, isSponsoredContentL, containsSub, List.any_eq_true]

/-- Claim C2: deduplication is idempotent — running `deduplicateArticles`
on its own output returns it unchanged. -/
theorem c2_dedupe_idempotent (articles : List Article) :
    deduplicateArticles (deduplicateArticles articles) = deduplicateArticles articles := by
  obtain ⟨t, h1, h2⟩ := dedupeAux_sound articles [] [] [] (fun _ hk => hk)
  have ht : deduplicateArticles articles = t := by simpa [deduplicateArticles] using h1
  rw [ht, deduplicateArticles]
  simpa using dedupeAux_stable t [] [] h2

/-- Equality of the code similarity metric with its spec-side
reformulation over word `Finset`s and a max denominator. -/
lemma similarity_eq_specMax (a b : String) : similarity a b = specSimilarityMax a b := by
  simp only [similarity, specSimilarityMax]
  by_cases h1 : jsToLowerL a.data = jsToLowerL b.data
  · rw [if_pos h1, if_pos h1]
  · rw [if_neg h1, if_neg h1]
    by_cases h2 : jsToLowerL b.data <:+: jsToLowerL a.data ∨ jsToLowerL a.data <:+: jsToLowerL b.data
    · rw [if_pos (by simpa [containsSub] using h2), if_pos h2]
    · rw [if_neg (by simpa [containsSub] using h2), if_neg h2]
      rw [wordFinset, wordFinset, filter_dedup_length, List.card_toFinset, List.card_toFinset]

/-- Symmetry of the spec-side similarity reformulation. -/
lemma specMax_symm (a b : String) : specSimilarityMax a b = specSimilarityMax b a := by
  simp only [specSimilarityMax]
  by_cases h1 : jsToLowerL a.data = jsToLowerL b.data
  · rw [if_pos h1, if_pos h1.symm]
  · rw [if_neg h1, if_neg (show ¬(jsToLowerL b.data = jsToLowerL a.data) from fun hc => h1 hc.symm)]
    by_cases h2 : jsToLowerL b.data <:+: jsToLowerL a.data ∨ jsToLowerL a.data <:+: jsToLowerL b.data
    · rw [if_pos h2, if_pos (Or.symm h2)]
    · rw [if_neg h2, if_neg (fun hc => h2 (Or.symm hc))]
      rw [Finset.inter_comm, sup_comm]

/-- Claim C3, counterexample: the word-overlap fallback of the similarity
metric is not the Jaccard overlap the claim states; on the titles `a b`
and `b c` the code yields 1/2 (intersection over larger set) while the
Jaccard overlap is 1/3. -/
theorem c3_counterexample :
    similarity ("a b") ("b c") = 1 / 2 ∧
    specSimilarityJaccard ("a b") ("b c") = 1 / 3 ∧
    similarity ("a b") ("b c") ≠ specSimilarityJaccard ("a b") ("b c") := by
  have hs : similarity ("a b") ("b c") = 1 / 2 := by
    simp only [similarity]
    rw [if_neg (by decide), if_neg (by decide)]
    have e1 : (List.filter (fun w => decide (w ∈ (jsSplitWs (jsToLowerL ['b', ' ', 'c'])).dedup))
        (jsSplitWs (jsToLowerL ['a', ' ', 'b'])).dedup).length = 1 := by decide
    have e2 : (jsSplitWs (jsToLowerL ['a', ' ', 'b'])).dedup.length = 2 := by decide
    have e3 : (jsSplitWs (jsToLowerL ['b', ' ', 'c'])).dedup.length = 2 := by decide
    rw [e1, e2, e3]
    norm_num
  have hj : specSimilarityJaccard ("a b") ("b c") = 1 / 3 := by
    simp only [specSimilarityJaccard]
    rw [if_neg (by decide), if_neg (by decide)]
    have e1 : (wordFinset (jsToLowerL ['a', ' ', 'b']) ∩
        wordFinset (jsToLowerL ['b', ' ', 'c'])).card = 1 := by decide
    have e2 : (wordFinset (jsToLowerL ['a', ' ', 'b']) ∪
        wordFinset (jsToLowerL ['b', ' ', 'c'])).card = 3 := by decide
    rw [e1, e2]
    norm_num
  exact ⟨hs, hj, by rw [hs, hj]; norm_num⟩

/-- Claim C3 as amended: the similarity metric is 1 on case-insensitive
equality, 0.9 on substring containment, and otherwise the intersection
size divided by the size of the larger of the two word sets (not the
union). -/
theorem c3_similarity_amended (a b : String) : similarity a b = specSimilarityMax a b :=
  similarity_eq_specMax a b

/-- Claim C5: resolving the tracking URL that percent-encodes
`https://example.com/article?utm_source=x` in its `/CL0/` segment yields
exactly `https://example.com/article`. -/
theorem c5_url_roundtrip :
    extractRealUrl
        ("https://tracking.tldrnewsletter.com/CL0/https:%2F%2Fexample.com%2Farticle%3Futm_source%3Dx/1/0100019/abc")
      = ("https://example.com/article") := by
  decide

/-- Claim C6: URL resolution is total — with the fallible decoding and URL
parsing made explicit, every input yields `Except.ok`; a concrete broken
percent-encoding makes the decoder throw inside the tracking branch, and
the resolver still returns the empty-string sentinel. -/
theorem c6_resolver_total :
    (∀ s : String, ∃ r : String, extractRealUrlE s = Except.ok r) ∧
    trackingExtract (("https://tracking.tldrnewsletter.com/CL0/https:%2/x/y").data) =
      Except.error ("URIError") ∧
    extractRealUrl ("https://tracking.tldrnewsletter.com/CL0/https:%2/x/y") = ("") := by
  refine ⟨fun s => ?_, rfl, by decide⟩
  simp only [extractRealUrlE]
  split
  · exact ⟨_, rfl⟩
  · split
    · exact ⟨_, rfl⟩
    · split
      · split
        · exact ⟨_, rfl⟩
        · split
          · exact ⟨_, rfl⟩
          · exact ⟨_, rfl⟩
      · exact ⟨_, rfl⟩

/-- Claim C7, counterexample: in the direct branch the blocklist check is
applied to the raw href before cleaning, while the URL constructor
percent-decodes the host — so `https://tldr%2Etech/x` passes the check
and resolves to the nonempty URL `https://tldr.tech/x`, whose host
contains the blocklisted substring `tldr.tech`, contradicting the claim
that such a URL is always rejected. -/
theorem c7_counterexample :
    extractRealUrl ("https://tldr%2Etech/x") = ("https://tldr.tech/x") ∧
    ("tldr.tech") ∈ SKIP_DOMAINS ∧
    extractRealUrl ("https://tldr%2Etech/x") ≠ ("") ∧
    (jsToLowerL (("tldr.tech").data) <:+:
      jsToLowerL (extractRealUrl ("https://tldr%2Etech/x")).data) := by
  exact ⟨by decide, by decide, by decide, by decide⟩

/-- Claim C7 as amended: blocklist membership is a case-insensitive
substring match, and it is enforced on the strings the code actually
inspects — the tracking branch checks its final extracted URL, so any URL
it returns is free of blocklisted substrings; the direct branch checks
the raw href before cleaning, so a href containing a blocklisted
substring (case-insensitively) is rejected with the empty sentinel, but a
percent-encoded host can evade this pre-clean check. -/
theorem c7_blocklist_amended :
    (∀ url : List Char, hitsSkipDomain url = true ↔
      ∃ d ∈ SKIP_DOMAINS, jsToLowerL d.data <:+: jsToLowerL url) ∧
    (∀ (tl r : List Char) (d : String), trackedResult tl = some r → d ∈ SKIP_DOMAINS →
      ¬(jsToLowerL d.data <:+: jsToLowerL r)) ∧
    (∀ (href d : String), d ∈ SKIP_DOMAINS →
      jsToLowerL d.data <:+: jsToLowerL href.data →
      trackedResult href.data = none →
      extractRealUrl href = ("")) := by
  refine ⟨fun url => ?_,
    fun tl r d htr hd => hitsSkipDomain_false (trackedResult_not_skip htr) hd,
    fun href d hd hinf htr => ?_⟩
  · simp [hitsSkipDomain, containsSub, List.any_eq_true]
  · have hskip : hitsSkipDomain href.data = true := by
      rw [hitsSkipDomain, List.any_eq_true]
      exact ⟨d, hd, containsSub_iff.mpr hinf⟩
    rcases extractRealUrlE_cases href with h | ⟨r, htr2, h, hs⟩ | ⟨u, hp, hs, h⟩ | ⟨hs, h⟩
    · exact extractRealUrl_of_E h
    · rw [htr] at htr2
      cases htr2
    · simp [hskip] at hs
    · simp [hskip] at hs

/-- Witness for claim C7's amended theorem: the direct-branch conjunct at
a blocklisted raw href (rejected with the sentinel), and the
tracking-branch conjunct at a concrete tracking URL whose extracted
result is checked against `tldr.tech`. -/
theorem c7_witness :
    extractRealUrl ("https://linkedin.com/in/someone") = ("") ∧
    ¬(jsToLowerL (("tldr.tech").data) <:+:
        jsToLowerL (("https://example.com/article").data)) :=
  ⟨c7_blocklist_amended.2.2 ("https://linkedin.com/in/someone") ("linkedin.com")
      (by decide) (by decide) (by decide),
    c7_blocklist_amended.2.1
      (("https://tracking.tldrnewsletter.com/CL0/https:%2F%2Fexample.com%2Farticle%3Futm_source%3Dx/1/0100019/abc").data)
      (("https://example.com/article").data) ("tldr.tech") (by decide) (by decide)⟩

/-- Claim C8, counterexample: the non-newsletter heuristic is a
disjunction in the code, not the claimed conjunction — a fresh message
with a keyword-free subject and a short body is skipped by the code while
the claim's condition does not hold. -/
theorem c8_counterexample :
    emailSkipped ("TLDR Tech: daily digest") ("hi") 0 0 = true ∧
    specEmailSkipped ("TLDR Tech: daily digest") ("hi") 0 0 = false := by
  decide

/-- Claim C8 as amended: the orchestrator skips a message exactly when its
age exceeds the 24-hour window, or the lowercased subject contains one of
the confirm/welcome/verify/subscription/thank-you keywords, or the body is
shorter than 500 characters (the last two are independent disjuncts). -/
theorem c8_skip_amended (subject text : String) (emailDate now : Int) :
    emailSkipped subject text emailDate now = true ↔
      (emailDate < now - MS_PER_DAY ∨
        (∃ k ∈ skipKeywords, k.data <:+: jsToLowerL subject.data) ∨
        text.data.length < 500) := by
  simp [emailSkipped, shouldSkipEmail, containsSub, List.any_eq_true]

/-- Claim C4: for every input text the summary normaliser returns at most
500 characters, and whenever the result is a truncation (rather than the
joined selected sentences, the full cleaned text, or empty) it carries the
trailing ellipsis marker. -/
theorem c4_summary_bounded (text : String) :
    (cleanSummary text).data.length ≤ 500 ∧
    ((("...".data) <:+ (cleanSummary text).data) ∨
      (cleanSummary text).data = summaryJoined (cleanedOfL text.data) ∨
      (cleanSummary text).data = cleanedOfL text.data ∨
      (cleanSummary text).data = []) := by
  have hd : (cleanSummary text).data = cleanSummaryL text.data := rfl
  rw [hd]
  unfold cleanSummaryL
  generalize cleanedOfL text.data = C
  split
  · exact ⟨by simp, Or.inr (Or.inr (Or.inr rfl))⟩
  · split
    · split
      · refine ⟨?_, Or.inl (List.suffix_append _ _)⟩
        simp only [List.length_append, List.length_take, List.length_cons, List.length_nil]
        omega
      · next h500 =>
        refine ⟨by omega, Or.inr (Or.inl rfl)⟩
    · split
      · split
        · split
          · refine ⟨?_, Or.inl (List.suffix_append _ _)⟩
            simp only [List.length_append, List.length_take, List.length_cons, List.length_nil]
            omega
          · refine ⟨?_, Or.inl (List.suffix_append _ _)⟩
            simp only [List.length_append, List.length_take, List.length_cons, List.length_nil]
            omega
        · refine ⟨?_, Or.inl (List.suffix_append _ _)⟩
          simp only [List.length_append, List.length_take, List.length_cons, List.length_nil]
          omega
      · next hn300 =>
        exact ⟨by omega, Or.inr (Or.inr (Or.inl rfl))⟩

/-- Claim C9, counterexample: a text-pass candidate whose title has exactly
10 characters, with a resolvable URL in the window and no sponsor flag, is
rejected by the code (which requires strictly more than 10 characters),
while the claim's reject condition (`shorter than 10`) does not hold. -/
theorem c9_counterexample :
    parseTextArticles ("1234567890 (3 minute read)\nhttps://example.com/a") = [] ∧
    readTimeMatchL (("1234567890 (3 minute read)").data) =
      some ((("1234567890").data), (("3").data)) ∧
    (jsTrim (("1234567890").data)).length = 10 ∧
    urlAt (textLines ("1234567890 (3 minute read)\nhttps://example.com/a")) 0 ≠ [] ∧
    isSponsoredContentL
        (jsTrim (("1234567890").data) ++ ' ' ::
          summaryAt (textLines ("1234567890 (3 minute read)\nhttps://example.com/a")) 0) =
      false := by
  exact ⟨by decide, by decide, by decide, by decide, by decide⟩

/-- Claim C9 as amended: every surviving text-pass candidate has a nonempty
resolved URL, and a candidate anchored at a read-time line is rejected
exactly when the window URL search yields nothing, or the trimmed title
has at most 10 characters (the code requires strictly more than 10), or
the title-plus-summary context is flagged as sponsored. -/
theorem c9_text_reject_amended :
    (∀ (text : String) (a : Article), a ∈ parseTextArticles text → a.url ≠ ("")) ∧
    (∀ (lines : List (List Char)) (i : Nat) (h : i < lines.length) (g1 ds : List Char),
      readTimeMatchL (lines.get ⟨i, h⟩) = some (g1, ds) →
      (textCandidate lines i = none ↔
        (urlAt lines i = [] ∨ (jsTrim g1).length ≤ 10 ∨
          isSponsoredContentL (jsTrim g1 ++ ' ' :: summaryAt lines i) = true))) := by
  constructor
  · intro text a ha
    simp only [parseTextArticles, List.mem_filterMap] at ha
    obtain ⟨i, _, hc⟩ := ha
    revert hc
    unfold textCandidate
    split
    · split
      · intro hc; cases hc
      · split
        · next hcond =>
          split
          · intro hc; cases hc
          · intro hc
            obtain rfl := Option.some_inj.mp hc
            intro he
            have h0 : urlAt (textLines text) i = [] := congrArg String.data he
            exact hcond.2 (by simp [h0])
        · intro hc; cases hc
    · intro hc; cases hc
  · intro lines i h g1 ds hm
    unfold textCandidate
    rw [dif_pos h]
    split
    · next heq => rw [hm] at heq; cases heq
    · next a b heq =>
      rw [heq] at hm
      injection hm with hp
      injection hp with h1 h2
      subst h1
      subst h2
      by_cases hcond : 10 < (jsTrim a).length ∧ ¬(urlAt lines i).isEmpty = true
      · rw [if_pos hcond]
        by_cases hsp : isSponsoredContentL (jsTrim a ++ ' ' :: summaryAt lines i) = true
        · rw [if_pos hsp]
          simp [hsp]
        · rw [if_neg hsp]
          constructor
          · intro hc; cases hc
          · intro hd
            rcases hd with hd | hd | hd
            · exact absurd (by simp [hd] : (urlAt lines i).isEmpty = true) hcond.2
            · omega
            · exact absurd hd hsp
      · rw [if_neg hcond]
        simp only [true_iff]
        rw [Decidable.not_and_iff_or_not] at hcond
        rcases hcond with hc | hc
        · exact Or.inr (Or.inl (by omega))
        · exact Or.inl (by simpa [List.isEmpty_iff] using hc)

/-- Witness for claim C9's amended theorem: the reject-iff instantiated at
a concrete two-line text whose read-time line carries an 11-character
title. -/
theorem c9_witness :
    textCandidate (textLines ("12345678901 (3 minute read)\nhttps://example.com/a")) 0 = none ↔
      (urlAt (textLines ("12345678901 (3 minute read)\nhttps://example.com/a")) 0 = [] ∨
        (jsTrim (("12345678901").data)).length ≤ 10 ∨
        isSponsoredContentL
            (jsTrim (("12345678901").data) ++ ' ' ::
              summaryAt (textLines ("12345678901 (3 minute read)\nhttps://example.com/a")) 0) =
          true) :=
  c9_text_reject_amended.2 (textLines ("12345678901 (3 minute read)\nhttps://example.com/a")) 0
    (by decide) (("12345678901").data) (("3").data) (by decide)

/-- Claim C10: the similarity metric is symmetric and reflexive, so the
duplicate relation `similarity > 0.8` does not depend on argument
order. -/
theorem c10_similarity_sym_refl :
    (∀ a b : String, similarity a b = similarity b a) ∧
    (∀ a : String, similarity a a = 1) ∧
    (∀ a b : String, ((4 : ℚ) / 5 < similarity a b ↔ (4 : ℚ) / 5 < similarity b a)) := by
  have hsym : ∀ a b : String, similarity a b = similarity b a := fun a b => by
    rw [similarity_eq_specMax, similarity_eq_specMax, specMax_symm]
  refine ⟨hsym, fun a => by simp [similarity], fun a b => by rw [hsym a b]⟩

end TLDR
